import Mathlib

/-!
Verification development for the rockpi-quad-go daemon.

Fan control loop: shallow embedding of `internal/fan/fan.go`
(`calculateDutyCycle`, `linearInterpolate`, `getTemperatures`, `update`)
with float64 temperatures and duty cycles modelled as rationals, and the
PWM device modelled as an oracle (`cpuSetOK`/`diskSetOK`) plus a trace of
issued `SetDutyCycle` calls.

Button gesture decoder: shallow embedding of `internal/button/button.go`
(the gpiocdev revision: `New`, `Run`, `detectButtonEvent`,
`drainEventChannel`) as a timed small-step state machine over a FIFO list
of timestamped edge events, with the Go `select` timeouts made explicit:
at each wait point the next queued event is consumed if its timestamp is
no later than the timeout deadline, otherwise the timeout fires.
-/

namespace RockPiQuad

/-- Fan-related configuration fields used by the fan controller
(`config.FanConfig` in `internal/config/config.go`). -/
structure FanCfg where
  LV0C : ℚ
  LV1C : ℚ
  LV2C : ℚ
  LV3C : ℚ
  LV0F : ℚ
  LV1F : ℚ
  LV2F : ℚ
  LV3F : ℚ
  MaxCPUTemp : ℚ
  MaxDiskTemp : ℚ
  Linear : Bool
  TempDisks : Bool
deriving DecidableEq

/-- Constant `MinDutyCycle = 0.07` from `internal/fan/fan.go`. -/
def MinDutyCycle : ℚ := 0.07

/-- The scan loop of `linearInterpolate`: walk the `(level, dutyCycle)`
control points in order; the first bracketing segment
`levels[i] <= temp < levels[i+1]` wins and interpolates linearly; if no
segment matches, return `1.0`. -/
def interpSegments (temp : ℚ) : List (ℚ × ℚ) → ℚ
  | (l0, d0) :: (l1, d1) :: rest =>
      if l0 ≤ temp ∧ temp < l1 then
        d0 + (temp - l0) / (l1 - l0) * (d1 - d0)
      else interpSegments temp ((l1, d1) :: rest)
  | _ => 1

/-- Function `Controller.linearInterpolate` from `internal/fan/fan.go`: below `lv0`
the duty is `0`; otherwise interpolate across the control points
`(lv0,0.01),(lv1,0.25),(lv2,0.50),(lv3,0.75),(maxTemp,1.0)`. -/
def linearInterpolate (temp lv0 lv1 lv2 lv3 maxTemp : ℚ) : ℚ :=
  if temp < lv0 then 0
  else interpSegments temp
    [(lv0, 0.01), (lv1, 0.25), (lv2, 0.5), (lv3, 0.75), (maxTemp, 1)]

/-- Function `Controller.calculateDutyCycle` from `internal/fan/fan.go`: select the
breakpoints of the channel (`'c'` = CPU, otherwise disk), then apply the
linear curve if `Linear` is set, else the step curve. -/
def calculateDutyCycle (cfg : FanCfg) (temp : ℚ) (key : Char) : ℚ :=
  let lv0 := if key = 'c' then cfg.LV0C else cfg.LV0F
  let lv1 := if key = 'c' then cfg.LV1C else cfg.LV1F
  let lv2 := if key = 'c' then cfg.LV2C else cfg.LV2F
  let lv3 := if key = 'c' then cfg.LV3C else cfg.LV3F
  let maxTemp := if key = 'c' then cfg.MaxCPUTemp else cfg.MaxDiskTemp
  if cfg.Linear then linearInterpolate temp lv0 lv1 lv2 lv3 maxTemp
  else if temp < lv0 then 0
  else if temp < lv1 then 0.25
  else if temp < lv2 then 0.5
  else if temp < lv3 then 0.75
  else 1

/-- The minimum-duty-cycle flooring step of `Controller.update`:
`if dc > 0 && dc < MinDutyCycle { dc = MinDutyCycle }`. -/
def applyFloor (dc : ℚ) : ℚ :=
  if 0 < dc ∧ dc < MinDutyCycle then MinDutyCycle else dc

/-- Mutable controller state from the `fan.Controller` struct:
`lastCPUDC`, `lastDiskDC` (last applied duty cycles) and `lastTemp`
(instant of the last disk-temperature sample, as seconds). -/
structure CState where
  lastCPUDC : ℚ
  lastDiskDC : ℚ
  lastTemp : ℚ
deriving DecidableEq

/-- External inputs of one tick: the current instant, the CPU sensor
reading (`0` on read failure, already divided by 1000), what
`getMaxDiskTemp()` would return if called, and whether each channel's
`SetDutyCycle` call would succeed. -/
structure TickInput where
  now : ℚ
  cpuTemp : ℚ
  diskSensorTemp : ℚ
  cpuSetOK : Bool
  diskSetOK : Bool
deriving DecidableEq

/-- A `SetDutyCycle` call issued to one of the PWM devices. -/
inductive DevCall
  | cpuSet (dc : ℚ)
  | diskSet (dc : ℚ)
deriving DecidableEq

/-- The duty cycle carried by a device call. -/
def DevCall.duty : DevCall → ℚ
  | .cpuSet dc => dc
  | .diskSet dc => dc

/-- Function `Controller.getTemperatures` from `internal/fan/fan.go`: the CPU
temperature is read every tick; the disk temperature is read only when
`TempDisks` is set and more than 10 seconds have passed since `lastTemp`,
in which case `lastTemp` is reset to the current instant.  On ticks where
no disk read happens the returned disk temperature is the zero value. -/
def getTemperatures (cfg : FanCfg) (s : CState) (inp : TickInput) :
    ℚ × ℚ × CState :=
  if cfg.TempDisks ∧ 10 < inp.now - s.lastTemp then
    (inp.cpuTemp, inp.diskSensorTemp, { s with lastTemp := inp.now })
  else
    (inp.cpuTemp, 0, s)

/-- The disk half of `Controller.update`: only when a separate disk PWM
exists (`c.diskPWM != nil`) and the floored disk duty differs from
`lastDiskDC` is a `SetDutyCycle` issued; on success `lastDiskDC` is
updated, on failure the error is returned. -/
def diskPhase (hasDiskPWM : Bool) (inp : TickInput) (s : CState)
    (diskDC : ℚ) (calls : List DevCall) : CState × List DevCall × Bool :=
  if hasDiskPWM then
    if diskDC ≠ s.lastDiskDC then
      if inp.diskSetOK then
        ({ s with lastDiskDC := diskDC }, calls ++ [DevCall.diskSet diskDC], false)
      else (s, calls ++ [DevCall.diskSet diskDC], true)
    else (s, calls, false)
  else (s, calls, false)

/-- Function `Controller.update` from `internal/fan/fan.go`: read temperatures,
compute and floor both duty cycles, then write the CPU channel only on
change (returning early on a write error, without recording the value),
then the disk channel likewise.  The returned `Bool` is `true` exactly
when the Go function returns a non-nil error. -/
def update (cfg : FanCfg) (hasDiskPWM : Bool) (s : CState) (inp : TickInput) :
    CState × List DevCall × Bool :=
  let r := getTemperatures cfg s inp
  let cpuTemp := r.1
  let diskTemp := r.2.1
  let s1 := r.2.2
  let cpuDC := applyFloor (calculateDutyCycle cfg cpuTemp 'c')
  let diskDC := applyFloor (calculateDutyCycle cfg diskTemp 'f')
  if cpuDC ≠ s1.lastCPUDC then
    if inp.cpuSetOK then
      diskPhase hasDiskPWM inp { s1 with lastCPUDC := cpuDC } diskDC
        [DevCall.cpuSet cpuDC]
    else (s1, [DevCall.cpuSet cpuDC], true)
  else diskPhase hasDiskPWM inp s1 diskDC []

/-- Concrete configuration of the spec's scenario: breakpoints
`35/40/45/50`, `maxCPUTemp 80`, stepped curve. -/
def scenarioCfgStepped : FanCfg :=
  { LV0C := 35, LV1C := 40, LV2C := 45, LV3C := 50
    LV0F := 35, LV1F := 40, LV2F := 45, LV3F := 50
    MaxCPUTemp := 80, MaxDiskTemp := 70
    Linear := false, TempDisks := false }

/-- The same scenario configuration with the linear curve selected. -/
def scenarioCfgLinear : FanCfg :=
  { scenarioCfgStepped with Linear := true }

/-- Any value returned by the interpolation scan lies in `[0, 1]`,
provided every control-point duty cycle lies in `[0, 1]`.  No ordering of
the levels is needed: a matched bracket `l0 ≤ temp < l1` forces
`l0 < l1`, so the interpolation ratio is in `[0, 1)`. -/
theorem interpSegments_mem_unit (temp : ℚ) (L : List (ℚ × ℚ))
    (hL : ∀ p ∈ L, 0 ≤ p.2 ∧ p.2 ≤ 1) :
    0 ≤ interpSegments temp L ∧ interpSegments temp L ≤ 1 := by
  induction L with
  | nil => simp [interpSegments]
  | cons a L ih =>
    obtain ⟨l0, d0⟩ := a
    cases L with
    | nil => simp [interpSegments]
    | cons b rest =>
      obtain ⟨l1, d1⟩ := b
      have hd0 := hL (l0, d0) (by simp)
      have hd1 := hL (l1, d1) (by simp)
      simp only [interpSegments]
      split_ifs with h
      · have hpos : 0 < l1 - l0 := by linarith [h.1, h.2]
        have hr0 : 0 ≤ (temp - l0) / (l1 - l0) :=
          div_nonneg (by linarith [h.1]) (le_of_lt hpos)
        have hr1 : (temp - l0) / (l1 - l0) ≤ 1 := by
          rw [div_le_one hpos]; linarith [h.2]
        constructor
        · nlinarith [mul_nonneg hr0 hd1.1,
            mul_nonneg (by linarith : (0:ℚ) ≤ 1 - (temp - l0) / (l1 - l0)) hd0.1]
        · nlinarith [mul_nonneg hr0 (by linarith : (0:ℚ) ≤ 1 - d1),
            mul_nonneg (by linarith : (0:ℚ) ≤ 1 - (temp - l0) / (l1 - l0))
              (by linarith : (0:ℚ) ≤ 1 - d0)]
      · exact ih fun p hp => hL p (List.mem_cons_of_mem _ hp)

/-- The linear curve always returns a value in `[0, 1]`, whatever the
breakpoints are. -/
theorem linearInterpolate_mem_unit (temp lv0 lv1 lv2 lv3 maxTemp : ℚ) :
    0 ≤ linearInterpolate temp lv0 lv1 lv2 lv3 maxTemp ∧
      linearInterpolate temp lv0 lv1 lv2 lv3 maxTemp ≤ 1 := by
  unfold linearInterpolate
  split_ifs
  · norm_num
  · apply interpSegments_mem_unit
    intro p hp
    simp only [List.mem_cons, List.not_mem_nil, or_false] at hp
    rcases hp with h | h | h | h | h <;> subst h <;> norm_num

/-- The duty-cycle curve always returns a value in `[0, 1]`, for any
configuration, channel and temperature. -/
theorem calculateDutyCycle_mem_unit (cfg : FanCfg) (temp : ℚ) (key : Char) :
    0 ≤ calculateDutyCycle cfg temp key ∧ calculateDutyCycle cfg temp key ≤ 1 := by
  cases hLin : cfg.Linear with
  | true =>
    simp only [calculateDutyCycle, hLin, eq_self_iff_true, if_true]
    apply linearInterpolate_mem_unit
  | false =>
    simp only [calculateDutyCycle, hLin, Bool.false_eq_true, if_false]
    split_ifs <;> norm_num

/-- A control-point list whose levels strictly increase and whose duty
cycles are non-decreasing, pairwise along the list. -/
def Chain2 : List (ℚ × ℚ) → Prop
  | (l0, d0) :: (l1, d1) :: rest => l0 < l1 ∧ d0 ≤ d1 ∧ Chain2 ((l1, d1) :: rest)
  | _ => True

/-- On a chained control-point list whose duty cycles are at most 1, the
scan started at `(l0, d0)` never returns less than `d0` for temperatures
at or above `l0`. -/
theorem interpSegments_lower (L : List (ℚ × ℚ)) :
    ∀ l0 d0 t : ℚ, Chain2 ((l0, d0) :: L) →
      (∀ p ∈ (l0, d0) :: L, p.2 ≤ 1) → l0 ≤ t →
      d0 ≤ interpSegments t ((l0, d0) :: L) := by
  induction L with
  | nil =>
    intro l0 d0 t _ hle _
    simpa [interpSegments] using hle (l0, d0) (by simp)
  | cons b rest ih =>
    obtain ⟨l1, d1⟩ := b
    intro l0 d0 t hch hle h0
    simp only [Chain2] at hch
    obtain ⟨h01, hd01, hch'⟩ := hch
    simp only [interpSegments]
    split_ifs with hm
    · have hpos : 0 < l1 - l0 := by linarith [hm.2]
      have hr0 : 0 ≤ (t - l0) / (l1 - l0) := div_nonneg (by linarith) hpos.le
      nlinarith [mul_nonneg hr0 (by linarith : (0:ℚ) ≤ d1 - d0)]
    · have h1t : l1 ≤ t := by
        by_contra hcon
        exact hm ⟨h0, lt_of_not_le fun hc => hcon (by linarith)⟩
      have := ih l1 d1 t hch' (fun p hp => hle p (List.mem_cons_of_mem _ hp)) h1t
      linarith

/-- On a chained control-point list whose duty cycles are at most 1, the
scan is monotone in the temperature (for temperatures at or above the
first level). -/
theorem interpSegments_mono (L : List (ℚ × ℚ)) :
    ∀ l0 d0 t1 t2 : ℚ, t1 ≤ t2 → Chain2 ((l0, d0) :: L) →
      (∀ p ∈ (l0, d0) :: L, p.2 ≤ 1) → l0 ≤ t1 →
      interpSegments t1 ((l0, d0) :: L) ≤ interpSegments t2 ((l0, d0) :: L) := by
  induction L with
  | nil => intro l0 d0 t1 t2 _ _ _ _; simp [interpSegments]
  | cons b rest ih =>
    obtain ⟨l1, d1⟩ := b
    intro l0 d0 t1 t2 ht hch hle h0
    simp only [Chain2] at hch
    obtain ⟨h01, hd01, hch'⟩ := hch
    by_cases hm1 : t1 < l1
    · have hpos : 0 < l1 - l0 := by linarith
      by_cases hm2 : t2 < l1
      · simp only [interpSegments]
        rw [if_pos ⟨h0, hm1⟩, if_pos ⟨le_trans h0 ht, hm2⟩]
        have hr : (t1 - l0) / (l1 - l0) ≤ (t2 - l0) / (l1 - l0) := by
          rw [div_le_div_iff₀ hpos hpos]
          nlinarith [mul_le_mul_of_nonneg_right
            (show t1 - l0 ≤ t2 - l0 by linarith) hpos.le]
        nlinarith [mul_le_mul_of_nonneg_right hr
          (by linarith : (0:ℚ) ≤ d1 - d0)]
      · simp only [interpSegments]
        rw [if_pos ⟨h0, hm1⟩, if_neg fun hc => hm2 hc.2]
        have hr1 : (t1 - l0) / (l1 - l0) ≤ 1 := by
          rw [div_le_one hpos]; linarith
        have hup : d0 + (t1 - l0) / (l1 - l0) * (d1 - d0) ≤ d1 := by
          nlinarith [mul_le_mul_of_nonneg_right hr1
            (by linarith : (0:ℚ) ≤ d1 - d0)]
        have hlow : d1 ≤ interpSegments t2 ((l1, d1) :: rest) :=
          interpSegments_lower rest l1 d1 t2 hch'
            (fun p hp => hle p (List.mem_cons_of_mem _ hp))
            (le_of_not_lt hm2)
        linarith
    · have h1t : l1 ≤ t1 := le_of_not_lt hm1
      simp only [interpSegments]
      rw [if_neg fun hc => hm1 hc.2,
        if_neg fun hc => absurd hc.2 (not_lt.mpr (le_trans h1t ht))]
      exact ih l1 d1 t1 t2 ht hch'
        (fun p hp => hle p (List.mem_cons_of_mem _ hp)) h1t

/-- The invariant set of applied duty cycles: `{0} ∪ [MinDutyCycle, 1]`. -/
def DutyOK (d : ℚ) : Prop := d = 0 ∨ (MinDutyCycle ≤ d ∧ d ≤ 1)

/-- Flooring any value of `[0, 1]` lands in `{0} ∪ [MinDutyCycle, 1]`. -/
theorem applyFloor_dutyOK (d : ℚ) (h0 : 0 ≤ d) (h1 : d ≤ 1) :
    DutyOK (applyFloor d) := by
  unfold applyFloor DutyOK
  split_ifs with h
  · right; constructor
    · exact le_refl _
    · norm_num [MinDutyCycle]
  · rw [not_and_or, not_lt, not_lt] at h
    rcases h with h | h
    · left; linarith
    · right; exact ⟨h, h1⟩

/-- The floored duty cycle computed on a tick is always in the invariant
set, for any configuration, channel and temperature. -/
theorem floor_calc_dutyOK (cfg : FanCfg) (temp : ℚ) (key : Char) :
    DutyOK (applyFloor (calculateDutyCycle cfg temp key)) :=
  applyFloor_dutyOK _ (calculateDutyCycle_mem_unit cfg temp key).1
    (calculateDutyCycle_mem_unit cfg temp key).2

/-- The floored CPU duty cycle computed by a tick with input `inp`. -/
def tickCpuDC (cfg : FanCfg) (inp : TickInput) : ℚ :=
  applyFloor (calculateDutyCycle cfg inp.cpuTemp 'c')

/-- The floored disk duty cycle computed by a tick: the temperature used
is the one produced by `getTemperatures` (the freshly sampled value, or
`0` between samples). -/
def tickDiskDC (cfg : FanCfg) (s : CState) (inp : TickInput) : ℚ :=
  applyFloor (calculateDutyCycle cfg (getTemperatures cfg s inp).2.1 'f')

end RockPiQuad

namespace RockPiQuad

/-- Helper fact: `getTemperatures` only ever touches `lastTemp`; the last-applied duty
cycles pass through unchanged, and the CPU reading is returned as-is. -/
theorem getTemperatures_state (cfg : FanCfg) (s : CState) (inp : TickInput) :
    (getTemperatures cfg s inp).2.2.lastCPUDC = s.lastCPUDC ∧
      (getTemperatures cfg s inp).2.2.lastDiskDC = s.lastDiskDC ∧
      (getTemperatures cfg s inp).1 = inp.cpuTemp := by
  unfold getTemperatures
  split_ifs <;> simp

/-- Claim C4: each tick's floored duty cycles land in
`{0} ∪ [MinDutyCycle, 1]`, every duty cycle written to a device on the
tick is in that set, and membership of both channels' last-applied values
is preserved by the tick. -/
theorem c4_update_floor_invariant (cfg : FanCfg) (hasDiskPWM : Bool)
    (s : CState) (inp : TickInput)
    (hc : DutyOK s.lastCPUDC) (hd : DutyOK s.lastDiskDC) :
    DutyOK (update cfg hasDiskPWM s inp).1.lastCPUDC ∧
      DutyOK (update cfg hasDiskPWM s inp).1.lastDiskDC ∧
      ∀ c ∈ (update cfg hasDiskPWM s inp).2.1, DutyOK c.duty := by
  have hcpu := floor_calc_dutyOK cfg (getTemperatures cfg s inp).1 'c'
  have hdisk := floor_calc_dutyOK cfg (getTemperatures cfg s inp).2.1 'f'
  have hst := getTemperatures_state cfg s inp
  simp only [update, diskPhase]
  split_ifs <;>
    simp_all [DevCall.duty, List.forall_mem_cons]

/-- Claim C4 (witness): the invariant theorem applied at a concrete
configuration, state and tick input. -/
theorem c4_update_floor_invariant_witness :
    DutyOK (update scenarioCfgStepped true ⟨0, 0, 0⟩ ⟨1, 50, 40, true, true⟩).1.lastCPUDC :=
  (c4_update_floor_invariant scenarioCfgStepped true ⟨0, 0, 0⟩ ⟨1, 50, 40, true, true⟩
    (Or.inl rfl) (Or.inl rfl)).1

/-- Claim C2 (amended): the disk-bay temperature is read only when
`TempDisks` is set and more than 10 seconds (a hardcoded interval) have
passed since the last read, and `lastTemp` is then reset to the current
instant — so at most one read per 10-second window; on all other ticks
the disk temperature used by the curve is `0`, not a cached copy of the
previously sampled value. -/
theorem c2_disk_sampling (cfg : FanCfg) (hasDiskPWM : Bool) (s : CState)
    (inp : TickInput) :
    ((update cfg hasDiskPWM s inp).1.lastTemp
        = if cfg.TempDisks ∧ 10 < inp.now - s.lastTemp then inp.now else s.lastTemp) ∧
      ((getTemperatures cfg s inp).2.1
        = if cfg.TempDisks ∧ 10 < inp.now - s.lastTemp then inp.diskSensorTemp else 0) := by
  simp only [update, diskPhase, getTemperatures]
  split_ifs <;> simp_all

/-- Configuration used by the C2 counterexample: disk monitoring enabled,
stepped curve, disk breakpoints `35/40/45/50`. -/
def cfgC2 : FanCfg :=
  { scenarioCfgStepped with TempDisks := true }

/-- Claim C2 (counterexample): starting from the freshly constructed
state (`lastTemp` an hour in the past), a first tick at `now = 0` samples
the disk sensor at 50 °C and applies full duty; the next tick one second
later — inside the refresh interval, sensor still reading 50 °C — applies
duty `0`, not the duty `1` obtained from the last sampled temperature,
so the cached value is not used between samples. -/
theorem c2_counterexample :
    (update cfgC2 true
        (update cfgC2 true ⟨0, 0, -3600⟩ ⟨0, 20, 50, true, true⟩).1
        ⟨1, 20, 50, true, true⟩).1.lastDiskDC = 0 ∧
      applyFloor (calculateDutyCycle cfgC2 50 'f') = 1 ∧ (0 : ℚ) ≠ 1 := by
  norm_num [update, diskPhase, getTemperatures, applyFloor, calculateDutyCycle,
    cfgC2, scenarioCfgStepped, tickCpuDC, tickDiskDC, MinDutyCycle]

/-- Claim C5 (amended): on every tick the CPU channel is written iff the
computed floored CPU duty differs from its last-applied value; the disk
channel — provided a dedicated disk PWM exists and the CPU channel did
not fail its write first — is written iff the computed floored disk duty
differs from its last-applied value; a channel whose computed value
equals its last-applied value keeps that value unchanged. -/
theorem c5_write_iff_amended (cfg : FanCfg) (hasDiskPWM : Bool) (s : CState)
    (inp : TickInput) :
    ((∃ d, DevCall.cpuSet d ∈ (update cfg hasDiskPWM s inp).2.1) ↔
        tickCpuDC cfg inp ≠ s.lastCPUDC) ∧
      (tickCpuDC cfg inp = s.lastCPUDC →
        (update cfg hasDiskPWM s inp).1.lastCPUDC = s.lastCPUDC) ∧
      (hasDiskPWM = true →
        (inp.cpuSetOK = true ∨ tickCpuDC cfg inp = s.lastCPUDC) →
        (((∃ d, DevCall.diskSet d ∈ (update cfg hasDiskPWM s inp).2.1) ↔
            tickDiskDC cfg s inp ≠ s.lastDiskDC) ∧
          (tickDiskDC cfg s inp = s.lastDiskDC →
            (update cfg hasDiskPWM s inp).1.lastDiskDC = s.lastDiskDC))) := by
  have hst := getTemperatures_state cfg s inp
  simp only [update, diskPhase, tickCpuDC, tickDiskDC, hst.2.2]
  split_ifs <;> simp_all

/-- Claim C5 (witness for the amended claim): the disk-channel
iff applied at a concrete tick on which both writes succeed. -/
theorem c5_write_iff_amended_witness :
    (∃ d, DevCall.diskSet d ∈ (update cfgC2 true ⟨0, 0, -3600⟩ ⟨0, 20, 50, true, true⟩).2.1) ↔
      tickDiskDC cfgC2 ⟨0, 0, -3600⟩ ⟨0, 20, 50, true, true⟩ ≠ (0 : ℚ) :=
  ((c5_write_iff_amended cfgC2 true ⟨0, 0, -3600⟩ ⟨0, 20, 50, true, true⟩).2.2
    rfl (Or.inl rfl)).1

/-- State used by the C5/C10 counterexamples: both channels last applied
full duty, disk sampling long overdue. -/
def sC5 : CState := ⟨1, 1, 0⟩

/-- Tick input used by the C5/C10 counterexamples: CPU at 42 °C, the CPU
write failing, the disk write available. -/
def inpC5 : TickInput := ⟨1, 42, 0, false, true⟩

/-- Claim C5 (counterexample): on a tick whose CPU write fails, the disk
channel's computed duty (0) differs from its last-applied value (1), yet
no disk `SetDutyCycle` call is issued — the only call is the failed CPU
one — refuting the unconditional per-channel iff. -/
theorem c5_counterexample :
    tickDiskDC scenarioCfgStepped sC5 inpC5 ≠ sC5.lastDiskDC ∧
      (update scenarioCfgStepped true sC5 inpC5).2.1 = [DevCall.cpuSet (1/2)] ∧
      DevCall.diskSet (tickDiskDC scenarioCfgStepped sC5 inpC5) ∉
        (update scenarioCfgStepped true sC5 inpC5).2.1 := by
  norm_num [update, diskPhase, getTemperatures, applyFloor, calculateDutyCycle,
    scenarioCfgStepped, tickCpuDC, tickDiskDC, MinDutyCycle, sC5, inpC5]
  exact fun h => DevCall.noConfusion h

/-- Claim C10: if the CPU write fails on a tick where the computed CPU
duty differs from the last-applied one, `update` reports the error, keeps
both channels' last-applied values unchanged (so the CPU write is retried
on the next tick), and the only device call of the tick is the failed CPU
one — the disk channel is not written at all. -/
theorem c10_cpu_write_failure (cfg : FanCfg) (hasDiskPWM : Bool) (s : CState)
    (inp : TickInput) (hfail : inp.cpuSetOK = false)
    (hdiff : tickCpuDC cfg inp ≠ s.lastCPUDC) :
    (update cfg hasDiskPWM s inp).2.2 = true ∧
      (update cfg hasDiskPWM s inp).1.lastCPUDC = s.lastCPUDC ∧
      (update cfg hasDiskPWM s inp).1.lastDiskDC = s.lastDiskDC ∧
      (update cfg hasDiskPWM s inp).2.1 = [DevCall.cpuSet (tickCpuDC cfg inp)] := by
  have hst := getTemperatures_state cfg s inp
  simp only [update, diskPhase, tickCpuDC, hst.2.2] at hdiff ⊢
  split_ifs <;> simp_all

/-- Claim C10 (witness): the failure theorem applied at a concrete tick
whose CPU write fails while the computed duty differs. -/
theorem c10_cpu_write_failure_witness :
    (update scenarioCfgStepped true sC5 inpC5).2.2 = true :=
  (c10_cpu_write_failure scenarioCfgStepped true sC5 inpC5 rfl
    (by norm_num [tickCpuDC, applyFloor, calculateDutyCycle, scenarioCfgStepped,
      sC5, inpC5, MinDutyCycle])).1

/-- Modelled from the spec: the fan controller's runtime toggle state.
`ToggleFan` and the current-speeds query are called from
`cmd/rockpi-quad-go/main.go` and `fan_test.go` but their implementation
is not part of the source tree, so the enabled flag and last-applied
duty cycles it manipulates are modelled here from the spec's words. -/
structure MFanState where
  enabled : Bool
  lastCPUDC : ℚ
  lastDiskDC : ℚ
deriving DecidableEq

/-- Modelled from the spec: the full-speed-equivalent duty cycle —
`100%`, or `0%` when the polarity is inverted. -/
def fullSpeedDC (inversed : Bool) : ℚ := if inversed then 0 else 1

/-- Modelled from the spec: `ToggleFan` flips Enabled/Disabled; on the
transition to Disabled it immediately forces both channels to the
full-speed-equivalent value, bypassing the curve, records that value as
last-applied, and on the transition to Enabled it only resumes ticking. -/
def ToggleFan (inversed : Bool) (s : MFanState) : MFanState × List DevCall :=
  if s.enabled then
    ({ enabled := false, lastCPUDC := fullSpeedDC inversed,
       lastDiskDC := fullSpeedDC inversed },
     [DevCall.cpuSet (fullSpeedDC inversed), DevCall.diskSet (fullSpeedDC inversed)])
  else ({ s with enabled := true }, [])

/-- Modelled from the spec (and `TestGetFanSpeeds` in `fan_test.go`):
the current-speeds query returns both last-applied duty cycles as
percentages. -/
def GetFanSpeeds (s : MFanState) : ℚ × ℚ := (s.lastCPUDC * 100, s.lastDiskDC * 100)

/-- Claim C3: toggling while Enabled transitions to Disabled, immediately
writes the full-speed-equivalent duty (1, or 0 under inverted polarity)
to both channels, records it as last-applied, and the current-speeds
query reflects the forced value — all before any further tick. -/
theorem c3_toggle_forces_full (inversed : Bool) (s : MFanState)
    (h : s.enabled = true) :
    (ToggleFan inversed s).1.enabled = false ∧
      (ToggleFan inversed s).1.lastCPUDC = fullSpeedDC inversed ∧
      (ToggleFan inversed s).1.lastDiskDC = fullSpeedDC inversed ∧
      (ToggleFan inversed s).2 =
        [DevCall.cpuSet (fullSpeedDC inversed), DevCall.diskSet (fullSpeedDC inversed)] ∧
      GetFanSpeeds (ToggleFan inversed s).1 =
        (fullSpeedDC inversed * 100, fullSpeedDC inversed * 100) := by
  simp [ToggleFan, GetFanSpeeds, h]

/-- Claim C3 (witness): toggling a concrete enabled state with normal
polarity forces both channels to duty 1 and the query reads 100%. -/
theorem c3_toggle_forces_full_witness :
    GetFanSpeeds (ToggleFan false ⟨true, 0, 0⟩).1 =
      (fullSpeedDC false * 100, fullSpeedDC false * 100) :=
  (c3_toggle_forces_full false ⟨true, 0, 0⟩ rfl).2.2.2.2

/-- Claim C8: with monotonically increasing breakpoints, the linear curve
is monotone non-decreasing on `[lv0, ∞)`, and its output always lies in
`[0, 1]` (for every temperature, even below `lv0`). -/
theorem c8_linear_monotone (lv0 lv1 lv2 lv3 maxT t1 t2 : ℚ)
    (h01 : lv0 < lv1) (h12 : lv1 < lv2) (h23 : lv2 < lv3) (h3m : lv3 < maxT)
    (ht0 : lv0 ≤ t1) (ht12 : t1 ≤ t2) :
    linearInterpolate t1 lv0 lv1 lv2 lv3 maxT ≤
        linearInterpolate t2 lv0 lv1 lv2 lv3 maxT ∧
      ∀ t, 0 ≤ linearInterpolate t lv0 lv1 lv2 lv3 maxT ∧
        linearInterpolate t lv0 lv1 lv2 lv3 maxT ≤ 1 := by
  constructor
  · unfold linearInterpolate
    rw [if_neg (not_lt.mpr ht0), if_neg (not_lt.mpr (le_trans ht0 ht12))]
    apply interpSegments_mono _ lv0 0.01 t1 t2 ht12
    · refine ⟨h01, by norm_num, h12, by norm_num, h23, by norm_num, h3m,
        by norm_num, trivial⟩
    · intro p hp
      simp only [List.mem_cons, List.not_mem_nil, or_false] at hp
      rcases hp with h | h | h | h | h <;> subst h <;> norm_num
    · exact ht0
  · exact fun t => linearInterpolate_mem_unit t lv0 lv1 lv2 lv3 maxT

/-- Claim C8 (witness): monotonicity applied at the spec's concrete
breakpoints and the pair of temperatures `42 ≤ 47`. -/
theorem c8_linear_monotone_witness :
    linearInterpolate 42 35 40 45 50 80 ≤ linearInterpolate 47 35 40 45 50 80 :=
  (c8_linear_monotone 35 40 45 50 80 42 47 (by norm_num) (by norm_num)
    (by norm_num) (by norm_num) (by norm_num) (by norm_num)).1

/-- A GPIO edge direction (`gpiocdev.LineEventFallingEdge` /
`LineEventRisingEdge`). -/
inductive Edge
  | falling
  | rising
deriving DecidableEq

/-- A timestamped edge event, as queued on the decoder's event channel
(`gpiocdev.LineEvent`); timestamps are seconds. -/
structure TEvent where
  t : ℚ
  e : Edge
deriving DecidableEq

/-- The gesture classes of `button.EventType`. -/
inductive EventType
  | click
  | doubleClick
  | longPress
deriving DecidableEq

/-- The decoder's two timing constants (seconds). -/
structure BtnCfg where
  twiceWindow : ℚ
  pressTime : ℚ
deriving DecidableEq

/-- Outcome of one `select` on the event channel versus a timer. -/
inductive WaitRes
  | ev (e : TEvent)
  | timeout
deriving DecidableEq

/-- One `select { case evt := <-eventChan; case <-time.After(d) }` at
instant `now`: the queued head event is received if it occurs no later
than the timeout deadline (an already-pending event is received at `now`
itself), otherwise the timer fires at `now + d`. -/
def wait (now d : ℚ) (evs : List TEvent) : WaitRes × ℚ × List TEvent :=
  match evs with
  | [] => (.timeout, now + d, [])
  | e :: rest =>
    if e.t ≤ now + d then (.ev e, max now e.t, rest)
    else (.timeout, now + d, evs)

/-- The control points of `detectButtonEvent`: the initial wait for a
falling edge, the wait for release with the long-press check on each
50 ms poll, the wait-for-release after the long-press threshold fired,
the double-click window, and the wait for the second click's release. -/
inductive Phase
  | idle
  | pressed (pressStart : ℚ)
  | lpWait
  | dblWait (deadline : ℚ)
  | dblRelease
deriving DecidableEq

/-- One blocking `select` iteration of `detectButtonEvent`, as a step
function: `Sum.inl` continues in a new phase, `Sum.inr` returns from the
function (`none` models the empty-string return after an idle timeout).
Mirrors `internal/button/button.go`:
idle — falling edge ⇒ record `pressStart` and wait for release, rising
edge ignored, 200 ms timeout ⇒ return nothing;
pressed — rising edge ⇒ open the double-click window, 50 ms timeout ⇒
enter the long-press wait if `pressTime` has elapsed since `pressStart`;
lpWait — wait (forever) for the rising edge, then return LongPress;
dblWait — if the deadline has passed return Click, otherwise a falling
edge ⇒ wait for its release, timeout at the deadline ⇒ return Click;
dblRelease — rising edge ⇒ drain the still-queued events and return
DoubleClick. -/
def stepPhase (cfg : BtnCfg) (ph : Phase) (now : ℚ) (evs : List TEvent) :
    (Phase × ℚ × List TEvent) ⊕ (Option EventType × ℚ × List TEvent) :=
  match ph with
  | .idle =>
    match wait now 0.2 evs with
    | (.timeout, now', evs') => .inr (none, now', evs')
    | (.ev e, now', evs') =>
      if e.e = .falling then .inl (.pressed now', now', evs')
      else .inl (.idle, now', evs')
  | .pressed t0 =>
    match wait now 0.05 evs with
    | (.ev e, now', evs') =>
      if e.e = .rising then .inl (.dblWait (now' + cfg.twiceWindow), now', evs')
      else .inl (.pressed t0, now', evs')
    | (.timeout, now', evs') =>
      if cfg.pressTime ≤ now' - t0 then .inl (.lpWait, now', evs')
      else .inl (.pressed t0, now', evs')
  | .lpWait =>
    match wait now 0.05 evs with
    | (.ev e, now', evs') =>
      if e.e = .rising then .inr (some .longPress, now', evs')
      else .inl (.lpWait, now', evs')
    | (.timeout, now', evs') => .inl (.lpWait, now', evs')
  | .dblWait deadline =>
    if now < deadline then
      match wait now (deadline - now) evs with
      | (.ev e, now', evs') =>
        if e.e = .falling then .inl (.dblRelease, now', evs')
        else .inl (.dblWait deadline, now', evs')
      | (.timeout, now', evs') => .inr (some .click, now', evs')
    else .inr (some .click, now, evs)
  | .dblRelease =>
    match wait now 0.05 evs with
    | (.ev e, now', evs') =>
      if e.e = .rising then
        .inr (some .doubleClick, now',
          evs'.dropWhile fun x => decide (x.t ≤ now'))
      else .inl (.dblRelease, now', evs')
    | (.timeout, now', evs') => .inl (.dblRelease, now', evs')

/-- Result of running `detectButtonEvent` to completion: the returned
gesture (or nothing), the instant of return, and the events still
queued.  `stuck` means the step budget ran out with the function still
blocked. -/
inductive DetectRes
  | out (g : Option EventType) (now : ℚ) (rest : List TEvent)
  | stuck
deriving DecidableEq

/-- Iterate `stepPhase` until `detectButtonEvent` returns, with a step
budget standing in for the unbounded blocking loops. -/
def runPhase : Nat → BtnCfg → Phase → ℚ → List TEvent → DetectRes
  | 0, _, _, _, _ => .stuck
  | fuel+1, cfg, ph, now, evs =>
    match stepPhase cfg ph now evs with
    | .inl s => runPhase fuel cfg s.1 s.2.1 s.2.2
    | .inr r => .out r.1 r.2.1 r.2.2

/-- Function `detectButtonEvent` starts in the idle phase. -/
def detectButtonEvent (fuel : Nat) (cfg : BtnCfg) (now : ℚ)
    (evs : List TEvent) : DetectRes :=
  runPhase fuel cfg .idle now evs

/-- The decoder's `Run` loop: call `detectButtonEvent` repeatedly and
collect each non-empty gesture with its emission instant. -/
def decodeAllT : Nat → BtnCfg → ℚ → List TEvent → List (EventType × ℚ)
  | 0, _, _, _ => []
  | fuel+1, cfg, now, evs =>
    match detectButtonEvent (fuel+1) cfg now evs with
    | .stuck => []
    | .out none now' evs' => decodeAllT fuel cfg now' evs'
    | .out (some g) now' evs' => (g, now') :: decodeAllT fuel cfg now' evs'

/-- The controller state produced by `button.New` that matters to the
run loop: whether a GPIO line was successfully requested, plus the two
timing constants. -/
structure BCtrl where
  hasLine : Bool
  twiceWindow : ℚ
  pressTime : ℚ
deriving DecidableEq

/-- Outcomes of the external calls made by `button.New`: whether
`syslog.New` succeeds, whether `fmt.Sscanf` parses the line number, and
whether `gpiocdev.RequestLine` succeeds. -/
structure NewEnv where
  syslogOK : Bool
  lineParses : Bool
  requestOK : Bool
deriving DecidableEq

/-- Function `button.New` (gpiocdev revision): a syslog failure is the only error
path; an empty line string, an unparsable line number, or a failed line
request each yield a controller with no line (and no error). -/
def buttonNew (env : NewEnv) (line : String) (tw pt : ℚ) : Option BCtrl :=
  if env.syslogOK = false then none
  else if line = "" then some ⟨false, tw, pt⟩
  else if env.lineParses = false then some ⟨false, tw, pt⟩
  else if env.requestOK = false then some ⟨false, tw, pt⟩
  else some ⟨true, tw, pt⟩

/-- Function `button.Run`: with no line the loop only waits for cancellation and
emits nothing; otherwise it runs the gesture decoder. -/
def buttonRun (fuel : Nat) (c : BCtrl) (now : ℚ) (evs : List TEvent) :
    List (EventType × ℚ) :=
  if c.hasLine then decodeAllT fuel ⟨c.twiceWindow, c.pressTime⟩ now evs
  else []

/-- Idle phase, event within the 200 ms window, falling edge: the press
is recorded at the consumption instant. -/
theorem runPhase_idle_falling (cfg : BtnCfg) (fuel : Nat) (now : ℚ)
    (e : TEvent) (rest : List TEvent) (h : e.t ≤ now + 0.2)
    (hf : e.e = .falling) :
    runPhase (fuel + 1) cfg .idle now (e :: rest) =
      runPhase fuel cfg (.pressed (max now e.t)) (max now e.t) rest := by
  simp [runPhase, stepPhase, wait, if_pos h, hf]

/-- Idle phase, no event within the 200 ms window: `detectButtonEvent`
returns nothing. -/
theorem runPhase_idle_timeout (cfg : BtnCfg) (fuel : Nat) (now : ℚ)
    (e : TEvent) (rest : List TEvent) (h : ¬ e.t ≤ now + 0.2) :
    runPhase (fuel + 1) cfg .idle now (e :: rest) =
      .out none (now + 0.2) (e :: rest) := by
  simp [runPhase, stepPhase, wait, if_neg h]

/-- Idle phase with an empty queue: the 200 ms timer fires. -/
theorem runPhase_idle_empty (cfg : BtnCfg) (fuel : Nat) (now : ℚ) :
    runPhase (fuel + 1) cfg .idle now [] = .out none (now + 0.2) [] := by
  simp [runPhase, stepPhase, wait]

/-- Pressed phase, no event within the 50 ms poll and the long-press
threshold not yet reached: keep waiting. -/
theorem runPhase_pressed_poll (cfg : BtnCfg) (fuel : Nat) (now t0 : ℚ)
    (e : TEvent) (rest : List TEvent) (h : ¬ e.t ≤ now + 0.05)
    (hlt : ¬ cfg.pressTime ≤ now + 0.05 - t0) :
    runPhase (fuel + 1) cfg (.pressed t0) now (e :: rest) =
      runPhase fuel cfg (.pressed t0) (now + 0.05) (e :: rest) := by
  simp [runPhase, stepPhase, wait, if_neg h, if_neg hlt]

/-- Pressed phase, no event within the 50 ms poll and the long-press
threshold reached: enter the long-press wait. -/
theorem runPhase_pressed_lp (cfg : BtnCfg) (fuel : Nat) (now t0 : ℚ)
    (e : TEvent) (rest : List TEvent) (h : ¬ e.t ≤ now + 0.05)
    (hge : cfg.pressTime ≤ now + 0.05 - t0) :
    runPhase (fuel + 1) cfg (.pressed t0) now (e :: rest) =
      runPhase fuel cfg .lpWait (now + 0.05) (e :: rest) := by
  simp [runPhase, stepPhase, wait, if_neg h, if_pos hge]

/-- Pressed phase, rising edge within the 50 ms poll: the double-click
window opens at the consumption instant. -/
theorem runPhase_pressed_rising (cfg : BtnCfg) (fuel : Nat) (now t0 : ℚ)
    (e : TEvent) (rest : List TEvent) (h : e.t ≤ now + 0.05)
    (hr : e.e = .rising) :
    runPhase (fuel + 1) cfg (.pressed t0) now (e :: rest) =
      runPhase fuel cfg (.dblWait (max now e.t + cfg.twiceWindow))
        (max now e.t) rest := by
  simp [runPhase, stepPhase, wait, if_pos h, hr]

/-- Long-press wait, rising edge within the 50 ms poll: LongPress is
returned at the consumption instant. -/
theorem runPhase_lp_rising (cfg : BtnCfg) (fuel : Nat) (now : ℚ)
    (e : TEvent) (rest : List TEvent) (h : e.t ≤ now + 0.05)
    (hr : e.e = .rising) :
    runPhase (fuel + 1) cfg .lpWait now (e :: rest) =
      .out (some .longPress) (max now e.t) rest := by
  simp [runPhase, stepPhase, wait, if_pos h, hr]

/-- Long-press wait, no event within the 50 ms poll: keep waiting. -/
theorem runPhase_lp_poll (cfg : BtnCfg) (fuel : Nat) (now : ℚ)
    (e : TEvent) (rest : List TEvent) (h : ¬ e.t ≤ now + 0.05) :
    runPhase (fuel + 1) cfg .lpWait now (e :: rest) =
      runPhase fuel cfg .lpWait (now + 0.05) (e :: rest) := by
  simp [runPhase, stepPhase, wait, if_neg h]

/-- Double-click window still open, falling edge before the deadline:
wait for the second click's release. -/
theorem runPhase_dblWait_falling (cfg : BtnCfg) (fuel : Nat)
    (now deadline : ℚ) (e : TEvent) (rest : List TEvent)
    (hopen : now < deadline) (h : e.t ≤ now + (deadline - now))
    (hf : e.e = .falling) :
    runPhase (fuel + 1) cfg (.dblWait deadline) now (e :: rest) =
      runPhase fuel cfg .dblRelease (max now e.t) rest := by
  have h2 : e.t ≤ deadline := by linarith
  simp [runPhase, stepPhase, wait, if_pos hopen, if_pos h2, hf]

/-- Double-click window still open but the queue is empty: the window
timer fires at the deadline and Click is returned. -/
theorem runPhase_dblWait_empty (cfg : BtnCfg) (fuel : Nat)
    (now deadline : ℚ) (hopen : now < deadline) :
    runPhase (fuel + 1) cfg (.dblWait deadline) now [] =
      .out (some .click) deadline [] := by
  have harith : now + (deadline - now) = deadline := by ring
  simp [runPhase, stepPhase, wait, if_pos hopen, harith]

/-- Second-click release wait, rising edge within the 50 ms poll:
DoubleClick is returned and the still-queued events are drained. -/
theorem runPhase_dblRelease_rising (cfg : BtnCfg) (fuel : Nat) (now : ℚ)
    (e : TEvent) (rest : List TEvent) (h : e.t ≤ now + 0.05)
    (hr : e.e = .rising) :
    runPhase (fuel + 1) cfg .dblRelease now (e :: rest) =
      .out (some .doubleClick) (max now e.t)
        (rest.dropWhile fun x => decide (x.t ≤ max now e.t)) := by
  simp [runPhase, stepPhase, wait, if_pos h, hr]

/-- Second-click release wait, no event within the 50 ms poll: keep
waiting. -/
theorem runPhase_dblRelease_poll (cfg : BtnCfg) (fuel : Nat) (now : ℚ)
    (e : TEvent) (rest : List TEvent) (h : ¬ e.t ≤ now + 0.05) :
    runPhase (fuel + 1) cfg .dblRelease now (e :: rest) =
      runPhase fuel cfg .dblRelease (now + 0.05) (e :: rest) := by
  simp [runPhase, stepPhase, wait, if_neg h]

/-- A run loop over an empty event queue emits nothing, ever. -/
theorem decodeAllT_empty (cfg : BtnCfg) :
    ∀ (fuel : Nat) (now : ℚ), decodeAllT fuel cfg now [] = [] := by
  intro fuel
  induction fuel with
  | zero => intro now; rfl
  | succ n ih =>
    intro now
    simp only [decodeAllT, detectButtonEvent, runPhase_idle_empty]
    exact ih (now + 0.2)

/-- In the long-press wait with only the release queued, the decoder
polls every 50 ms until the rising edge at `tr` arrives and then returns
LongPress at `tr` — given enough steps to reach it. -/
theorem lpWait_emits_longPress (cfg : BtnCfg) :
    ∀ (fuel : Nat) (now tr : ℚ), now < tr → tr ≤ now + 0.05 * fuel + 0.05 →
      runPhase (fuel + 1) cfg .lpWait now [⟨tr, .rising⟩] =
        .out (some .longPress) tr [] := by
  intro fuel
  induction fuel with
  | zero =>
    intro now tr h1 h2
    push_cast at h2
    rw [runPhase_lp_rising cfg 0 now ⟨tr, .rising⟩ [] (by linarith) rfl,
      max_eq_right h1.le]
  | succ n ih =>
    intro now tr h1 h2
    by_cases hc : tr ≤ now + 0.05
    · rw [runPhase_lp_rising cfg (n + 1) now ⟨tr, .rising⟩ [] hc rfl,
        max_eq_right h1.le]
    · rw [runPhase_lp_poll cfg (n + 1) now ⟨tr, .rising⟩ [] hc]
      apply ih (now + 0.05) tr (by linarith [not_le.mp hc])
      push_cast at h2 ⊢
      linarith

/-- From the pressed phase holding past the threshold: if the release
comes at least one poll period after `pressStart + pressTime`, some 50 ms
poll notices the threshold first, the long-press wait is entered, and
LongPress is returned at the release instant. -/
theorem pressed_emits_longPress (cfg : BtnCfg) (t0 tr : ℚ)
    (hheld : t0 + cfg.pressTime + 0.05 ≤ tr) :
    ∀ (fuel : Nat) (now : ℚ), t0 ≤ now → now < t0 + cfg.pressTime →
      tr ≤ now + 0.05 * fuel + 0.05 →
      runPhase (fuel + 1) cfg (.pressed t0) now [⟨tr, .rising⟩] =
        .out (some .longPress) tr [] := by
  intro fuel
  induction fuel with
  | zero =>
    intro now h0 hlt h2
    exfalso
    push_cast at h2
    linarith
  | succ n ih =>
    intro now h0 hlt h2
    have hnr : ¬ tr ≤ now + 0.05 := not_le.mpr (by linarith)
    by_cases hth : cfg.pressTime ≤ now + 0.05 - t0
    · rw [runPhase_pressed_lp cfg (n + 1) now t0 ⟨tr, .rising⟩ [] hnr hth]
      apply lpWait_emits_longPress cfg n (now + 0.05) tr (by linarith [not_le.mp hnr])
      push_cast at h2 ⊢
      linarith
    · rw [runPhase_pressed_poll cfg (n + 1) now t0 ⟨tr, .rising⟩ [] hnr hth]
      apply ih (now + 0.05) (by linarith) (by linarith [not_le.mp hth])
      push_cast at h2 ⊢
      linarith

/-- One run-loop iteration that detects a gesture emits it and
continues. -/
theorem decodeAllT_out_some (fuel : Nat) (cfg : BtnCfg) (now : ℚ)
    (evs : List TEvent) (g : EventType) (now' : ℚ) (evs' : List TEvent)
    (h : detectButtonEvent (fuel + 1) cfg now evs = .out (some g) now' evs') :
    decodeAllT (fuel + 1) cfg now evs =
      (g, now') :: decodeAllT fuel cfg now' evs' := by
  simp only [decodeAllT, h]

/-- One run-loop iteration that detects nothing just continues. -/
theorem decodeAllT_out_none (fuel : Nat) (cfg : BtnCfg) (now : ℚ)
    (evs : List TEvent) (now' : ℚ) (evs' : List TEvent)
    (h : detectButtonEvent (fuel + 1) cfg now evs = .out none now' evs') :
    decodeAllT (fuel + 1) cfg now evs = decodeAllT fuel cfg now' evs' := by
  simp only [decodeAllT, h]

/-- Claim C6 (amended): for every press at `t0` whose release comes no
sooner than `pressTime` plus one 50 ms poll period later, the run loop
emits exactly one gesture, a LongPress, and emits it exactly at the
release instant `tr` — never before the physical release. -/
theorem c6_long_press_amended (cfg : BtnCfg) (t0 tr : ℚ)
    (hpt : 0 < cfg.pressTime)
    (hheld : t0 + cfg.pressTime + 0.05 ≤ tr) :
    ∀ (fuel : Nat) (now : ℚ), now ≤ t0 →
      tr + 0.1 + (t0 - now) / 4 ≤ 0.05 * fuel + now →
      decodeAllT fuel cfg now [⟨t0, .falling⟩, ⟨tr, .rising⟩] =
        [(.longPress, tr)] := by
  intro fuel
  induction fuel with
  | zero =>
    intro now h0 hf
    exfalso
    push_cast at hf
    linarith
  | succ n ih =>
    intro now h0 hf
    by_cases hin : t0 ≤ now + 0.2
    · rcases n with _ | m
      · exfalso
        push_cast at hf
        linarith
      · have hdet : detectButtonEvent (m + 1 + 1) cfg now
            [⟨t0, .falling⟩, ⟨tr, .rising⟩] = .out (some .longPress) tr [] := by
          unfold detectButtonEvent
          rw [runPhase_idle_falling cfg (m + 1) now ⟨t0, .falling⟩ _ hin rfl,
            max_eq_right h0]
          apply pressed_emits_longPress cfg t0 tr hheld m t0 le_rfl (by linarith)
          push_cast at hf ⊢
          linarith
        rw [decodeAllT_out_some (m + 1) cfg now _ _ tr [] hdet,
          decodeAllT_empty]
    · have hdet : detectButtonEvent (n + 1) cfg now
          [⟨t0, .falling⟩, ⟨tr, .rising⟩] =
            .out none (now + 0.2) [⟨t0, .falling⟩, ⟨tr, .rising⟩] := by
        unfold detectButtonEvent
        exact runPhase_idle_timeout cfg n now ⟨t0, .falling⟩ _ hin
      rw [decodeAllT_out_none n cfg now _ _ _ hdet]
      apply ih (now + 0.2) (by linarith [not_le.mp hin])
      push_cast at hf ⊢
      linarith

/-- Claim C6 (witness): the amended long-press theorem applied at the
default configuration (`twiceWindow` 0.7 s, `pressTime` 1.8 s), press at
0, release at 1.9 s. -/
theorem c6_long_press_amended_witness :
    decodeAllT 100 ⟨0.7, 1.8⟩ 0 [⟨0, .falling⟩, ⟨1.9, .rising⟩] =
      [(.longPress, 1.9)] :=
  c6_long_press_amended ⟨0.7, 1.8⟩ 0 1.9 (by norm_num) (by norm_num) 100 0
    (by norm_num) (by norm_num)

/-- Claim C6 (counterexample): with `pressTime` 0.08 s, a press at 0
released at 0.09 s — held past `pressTime`, but released before the next
50 ms poll can notice — is classified as a single Click, not a
LongPress, refuting the claim as stated. -/
theorem c6_counterexample :
    (0.09 : ℚ) - 0 ≥ (0.08 : ℚ) ∧
      decodeAllT 10 ⟨0.1, 0.08⟩ 0 [⟨0, .falling⟩, ⟨0.09, .rising⟩] =
        [(.click, 0.19)] := by
  constructor
  · norm_num
  · norm_num [decodeAllT, detectButtonEvent, runPhase, stepPhase, wait]

/-- In the second-click release wait with only the release queued, the
decoder polls every 50 ms until the rising edge at `t3` arrives and then
returns DoubleClick at `t3`. -/
theorem dblRelease_emits_doubleClick (cfg : BtnCfg) :
    ∀ (fuel : Nat) (now t3 : ℚ), now < t3 → t3 ≤ now + 0.05 * fuel + 0.05 →
      runPhase (fuel + 1) cfg .dblRelease now [⟨t3, .rising⟩] =
        .out (some .doubleClick) t3 [] := by
  intro fuel
  induction fuel with
  | zero =>
    intro now t3 h1 h2
    push_cast at h2
    rw [runPhase_dblRelease_rising cfg 0 now ⟨t3, .rising⟩ [] (by linarith) rfl,
      max_eq_right h1.le]
    simp
  | succ n ih =>
    intro now t3 h1 h2
    by_cases hc : t3 ≤ now + 0.05
    · rw [runPhase_dblRelease_rising cfg (n + 1) now ⟨t3, .rising⟩ [] hc rfl,
        max_eq_right h1.le]
      simp
    · rw [runPhase_dblRelease_poll cfg (n + 1) now ⟨t3, .rising⟩ [] hc]
      apply ih (now + 0.05) t3 (by linarith [not_le.mp hc])
      push_cast at h2 ⊢
      linarith

/-- From the pressed phase of a quick first press: the first release (at
`t1`, within `pressTime`) opens the double-click window, the second
falling edge (at `t2`, strictly inside the window) is consumed, and
DoubleClick — no Click — is returned at the second release `t3`. -/
theorem pressed_emits_doubleClick (cfg : BtnCfg) (t0 t1 t2 t3 : ℚ)
    (h1pt : t1 ≤ t0 + cfg.pressTime) (h12 : t1 < t2)
    (h2w : t2 < t1 + cfg.twiceWindow) (h23 : t2 < t3) :
    ∀ (fuel : Nat) (now : ℚ), t0 ≤ now → now < t1 →
      t3 + 0.1 ≤ now + 0.05 * fuel →
      runPhase (fuel + 1) cfg (.pressed t0) now
          [⟨t1, .rising⟩, ⟨t2, .falling⟩, ⟨t3, .rising⟩] =
        .out (some .doubleClick) t3 [] := by
  intro fuel
  induction fuel with
  | zero =>
    intro now h0 hn1 hf
    exfalso
    push_cast at hf
    linarith
  | succ n ih =>
    intro now h0 hn1 hf
    by_cases hc : t1 ≤ now + 0.05
    · rw [runPhase_pressed_rising cfg (n + 1) now t0 ⟨t1, .rising⟩ _ hc rfl,
        max_eq_right hn1.le]
      rcases n with _ | m
      · exfalso
        push_cast at hf
        linarith
      · rw [runPhase_dblWait_falling cfg (m + 1) t1 (t1 + cfg.twiceWindow)
          ⟨t2, .falling⟩ _ (by linarith) (by simp; linarith) rfl,
          max_eq_right h12.le]
        apply dblRelease_emits_doubleClick cfg m t2 t3 h23
        push_cast at hf ⊢
        linarith
    · have hth : ¬ cfg.pressTime ≤ now + 0.05 - t0 := by
        intro hcon
        exact hc (by linarith)
      rw [runPhase_pressed_poll cfg (n + 1) now t0 ⟨t1, .rising⟩ _ hc hth]
      apply ih (now + 0.05) (by linarith) (by linarith [not_le.mp hc])
      push_cast at hf ⊢
      linarith

/-- Claim C7 (amended): for every quick first press (released within
`pressTime`) followed by a second falling edge strictly within
`twiceWindow` of the first release and its release afterwards, the run
loop emits exactly one DoubleClick — at the second release instant — and
zero Clicks. -/
theorem c7_double_click_amended (cfg : BtnCfg) (t0 t1 t2 t3 : ℚ)
    (hpt : 0 < cfg.pressTime) (h01 : t0 < t1)
    (h1pt : t1 ≤ t0 + cfg.pressTime) (h12 : t1 < t2)
    (h2w : t2 < t1 + cfg.twiceWindow) (h23 : t2 < t3) :
    ∀ (fuel : Nat) (now : ℚ), now ≤ t0 →
      t3 + 0.2 + (t0 - now) / 4 ≤ 0.05 * fuel + now →
      decodeAllT fuel cfg now
          [⟨t0, .falling⟩, ⟨t1, .rising⟩, ⟨t2, .falling⟩, ⟨t3, .rising⟩] =
        [(.doubleClick, t3)] := by
  intro fuel
  induction fuel with
  | zero =>
    intro now h0 hf
    exfalso
    push_cast at hf
    linarith
  | succ n ih =>
    intro now h0 hf
    by_cases hin : t0 ≤ now + 0.2
    · rcases n with _ | m
      · exfalso
        push_cast at hf
        linarith
      · have hdet : detectButtonEvent (m + 1 + 1) cfg now
            [⟨t0, .falling⟩, ⟨t1, .rising⟩, ⟨t2, .falling⟩, ⟨t3, .rising⟩] =
              .out (some .doubleClick) t3 [] := by
          unfold detectButtonEvent
          rw [runPhase_idle_falling cfg (m + 1) now ⟨t0, .falling⟩ _ hin rfl,
            max_eq_right h0]
          apply pressed_emits_doubleClick cfg t0 t1 t2 t3 h1pt h12 h2w h23 m t0
            le_rfl h01
          push_cast at hf ⊢
          linarith
        rw [decodeAllT_out_some (m + 1) cfg now _ _ t3 [] hdet,
          decodeAllT_empty]
    · have hdet : detectButtonEvent (n + 1) cfg now
          [⟨t0, .falling⟩, ⟨t1, .rising⟩, ⟨t2, .falling⟩, ⟨t3, .rising⟩] =
            .out none (now + 0.2)
              [⟨t0, .falling⟩, ⟨t1, .rising⟩, ⟨t2, .falling⟩, ⟨t3, .rising⟩] := by
        unfold detectButtonEvent
        exact runPhase_idle_timeout cfg n now ⟨t0, .falling⟩ _ hin
      rw [decodeAllT_out_none n cfg now _ _ _ hdet]
      apply ih (now + 0.2) (by linarith [not_le.mp hin])
      push_cast at hf ⊢
      linarith

/-- Claim C7 (witness): the amended double-click theorem applied at the
default configuration, clicks at 0–0.1 s and 0.5–0.6 s. -/
theorem c7_double_click_amended_witness :
    decodeAllT 100 ⟨0.7, 1.8⟩ 0
        [⟨0, .falling⟩, ⟨0.1, .rising⟩, ⟨0.5, .falling⟩, ⟨0.6, .rising⟩] =
      [(.doubleClick, 0.6)] :=
  c7_double_click_amended ⟨0.7, 1.8⟩ 0 0.1 0.5 0.6 (by norm_num) (by norm_num)
    (by norm_num) (by norm_num) (by norm_num) (by norm_num) 100 0
    (by norm_num) (by norm_num)

/-- Claim C7 (counterexample): with `pressTime` 0.08 s and `twiceWindow`
1 s, a first pair held past the threshold (0 to 0.2 s) followed by a
second pair whose falling edge (0.3 s) is within `twiceWindow` of the
first release yields a LongPress and then a Click — zero DoubleClicks —
refuting the claim as stated. -/
theorem c7_counterexample :
    (0.3 : ℚ) - 0.2 < (1 : ℚ) ∧
      decodeAllT 15 ⟨1, 0.08⟩ 0
          [⟨0, .falling⟩, ⟨0.2, .rising⟩, ⟨0.3, .falling⟩, ⟨0.4, .rising⟩] =
        [(.longPress, 0.2), (.click, 1.4)] := by
  constructor
  · norm_num
  · norm_num [decodeAllT, detectButtonEvent, runPhase, stepPhase, wait]

/-- Claim C9: whenever the edge source is unavailable — no line
configured, unparsable line number, or failed line request — and syslog
itself works, `button.New` succeeds, the resulting controller has no
line, and its run loop never emits a gesture. -/
theorem c9_no_edge_source_noop (env : NewEnv) (line : String) (tw pt : ℚ)
    (hsys : env.syslogOK = true)
    (hcond : line = "" ∨ env.lineParses = false ∨ env.requestOK = false) :
    ∃ c : BCtrl, buttonNew env line tw pt = some c ∧ c.hasLine = false ∧
      ∀ fuel now evs, buttonRun fuel c now evs = [] := by
  refine ⟨⟨false, tw, pt⟩, ?_, rfl, fun fuel now evs => by simp [buttonRun]⟩
  unfold buttonNew
  split_ifs <;> simp_all

/-- Claim C9 (witness): the no-op construction applied with an empty
line string and otherwise healthy environment. -/
theorem c9_no_edge_source_noop_witness :
    ∃ c : BCtrl, buttonNew ⟨true, true, true⟩ "" 0.7 1.8 = some c ∧
      c.hasLine = false ∧ ∀ fuel now evs, buttonRun fuel c now evs = [] :=
  c9_no_edge_source_noop ⟨true, true, true⟩ "" 0.7 1.8 rfl (Or.inl rfl)

/-- Claim C1 (counterexample): with breakpoints `35/40/45/50` and max
`80`, the linear curve at `t = 42` returns `0.35`, not the `0.60` the
claim states: `42` falls in the `[lv1, lv2)` segment whose control points
are `(lv1, 0.25)` and `(lv2, 0.50)`, not `(lv1, 0.50)` and
`(lv2, 0.75)`. -/
theorem c1_linear_42_not_060 :
    calculateDutyCycle scenarioCfgLinear 42 'c' = 0.35 ∧
      calculateDutyCycle scenarioCfgLinear 42 'c' ≠ 0.6 := by
  constructor <;>
    norm_num [calculateDutyCycle, scenarioCfgLinear, scenarioCfgStepped,
      linearInterpolate, interpSegments]

/-- Claim C1 (amended): for the configuration `lv0=35, lv1=40, lv2=45,
lv3=50, maxCPUTemp=80`, the duty-cycle curve at `t = 42` returns `0.50`
in stepped mode and `0.35 = 0.25 + ((42-40)/(45-40))*(0.50-0.25)` in
linear mode. -/
theorem c1_scenario_duties :
    calculateDutyCycle scenarioCfgStepped 42 'c' = 0.5 ∧
      calculateDutyCycle scenarioCfgLinear 42 'c'
        = 0.25 + (42 - 40) / (45 - 40) * (0.5 - 0.25) := by
  constructor <;>
    norm_num [calculateDutyCycle, scenarioCfgLinear, scenarioCfgStepped,
      linearInterpolate, interpSegments]

end RockPiQuad
